import Mathlib

/-!
Shallow embedding of the job-lifecycle and resumable-upload core of
`web_app.py` (Flask application for ergonomic trunk analysis).

The mutable global dictionary `active_jobs` is embedded as an association
list from job ids to job records; each Flask handler becomes a pure
function from the registry (plus the request data) to a result together
with the updated registry and a log of the file-system writes it performs.
Timestamps are naturals, chunk payloads are lists of bytes (naturals),
and the float progress arithmetic is embedded over `ℚ`.
-/

/-- Job status strings used by `web_app.py`:
`uploading`, `uploaded`, `processing`, `completed`, `error`. -/
inductive Status where
  | uploading
  | uploaded
  | processing
  | completed
  | error
deriving DecidableEq

/-- One entry of the `active_jobs` dictionary, as populated by
`init_upload` and mutated by `upload_chunk`, `start_processing`,
`process_video_async` and `cleanup_old_sessions`.  Keys that
`web_app.py` reads with `dict.get` (and that may be absent on some
jobs) are embedded as `Option` fields or with the code's defaults:
`progress` defaults to `0` and `message` to absent. -/
structure Job where
  filename : String := ""
  filepath : String := ""
  original_name : String := ""
  filesize : Nat := 0
  chunk_size : Nat := 0
  total_chunks : Nat := 0
  uploaded_chunks : Finset Int := ∅
  status : Status := .uploading
  upload_progress : ℚ := 0
  user : String := ""
  created_at : Option Nat := none
  progress : Nat := 0
  message : Option String := none
  output_video : Option String := none
  output_excel : Option String := none
deriving DecidableEq

/-- The `active_jobs` global dictionary: job id to job record. -/
abbrev Registry := List (String × Job)

/-- Dictionary lookup `active_jobs[job_id]` / `job_id in active_jobs`. -/
def findJob : Registry → String → Option Job
  | [], _ => none
  | (k, j) :: rest, job_id => if k = job_id then some j else findJob rest job_id

/-- In-place mutation of one entry of `active_jobs` (Python mutates the
job dict through the alias `job = active_jobs[job_id]`). -/
def updateJob : Registry → String → (Job → Job) → Registry
  | [], _, _ => []
  | (k, j) :: rest, job_id, f =>
    if k = job_id then (k, f j) :: updateJob rest job_id f
    else (k, j) :: updateJob rest job_id f

/-- A `f.seek(offset); f.write(data)` performed on a staging file. -/
structure FileWrite where
  path : String
  offset : Int
  data : List Nat
deriving DecidableEq

/-- Outcomes of the `/upload/chunk/<job_id>/<int:chunk_index>` handler,
one constructor per `return jsonify(...)` of `upload_chunk`
(authentication aside): the 404 "Upload session not found", the 400
"Upload session not active", the 400 "Invalid chunk index", the
`already_uploaded` response with its recomputed progress, the 400
"No chunk data received", and the success response. -/
inductive ChunkResult where
  | notFound
  | notActive
  | invalidIndex
  | alreadyUploaded (progress : ℚ)
  | noChunkData
  | success (progress : ℚ) (uploaded_chunks total_chunks : Nat) (upload_complete : Bool)
deriving DecidableEq

/-- The `upload_chunk` handler of `web_app.py` (lines 1113-1166): guard
chain (unknown job, non-`uploading` status, out-of-range index, already
received index, empty body), then the chunk write at byte offset
`chunk_index * chunk_size`, insertion of the index into
`uploaded_chunks`, progress recomputation, and the exactly-once
transition to `uploaded` when the set becomes complete.  Returns the
response, the updated registry, and the file writes performed. -/
def upload_chunk (reg : Registry) (job_id : String) (chunk_index : Int)
    (chunk_data : List Nat) : ChunkResult × Registry × List FileWrite :=
  match findJob reg job_id with
  | none => (.notFound, reg, [])
  | some job =>
    if job.status ≠ .uploading then (.notActive, reg, [])
    else if chunk_index ≥ (job.total_chunks : Int) ∨ chunk_index < 0 then
      (.invalidIndex, reg, [])
    else if chunk_index ∈ job.uploaded_chunks then
      (.alreadyUploaded ((job.uploaded_chunks.card : ℚ) / (job.total_chunks : ℚ) * 100),
        reg, [])
    else if chunk_data = [] then (.noChunkData, reg, [])
    else
      let chunks' := insert chunk_index job.uploaded_chunks
      let progress : ℚ := (chunks'.card : ℚ) / (job.total_chunks : ℚ) * 100
      let status' : Status :=
        if chunks'.card = job.total_chunks then .uploaded else job.status
      let job' : Job := { job with
        uploaded_chunks := chunks'
        upload_progress := progress
        status := status' }
      (.success progress chunks'.card job.total_chunks (status' == .uploaded),
        updateJob reg job_id (fun _ => job'),
        [⟨job.filepath, chunk_index * (job.chunk_size : Int), chunk_data⟩])

/-- Sequential delivery of a list of chunk indices to `upload_chunk`,
each index `i` carrying the payload `payload i`; threads the registry. -/
def run_chunks (reg : Registry) (job_id : String) (payload : Int → List Nat) :
    List Int → Registry
  | [] => reg
  | i :: rest => run_chunks (upload_chunk reg job_id i (payload i)).2.1 job_id payload rest

/-- `ALLOWED_EXTENSIONS` of `web_app.py`. -/
def ALLOWED_EXTENSIONS : List String :=
  [".mp4", ".avi", ".mov", ".mkv", ".m4v", ".wmv", ".flv", ".webm"]

/-- Final path component (Python `pathlib.PurePath.name` for a plain
POSIX-style path): the part after the last slash. -/
def pathName (s : String) : String :=
  ((s.toList.reverse.takeWhile (fun c => c ≠ '/')).reverse).asString

/-- Index of the last dot in a character list (Python `str.rfind`),
or `none` when there is no dot. -/
def rfindDot (l : List Char) : Option Nat :=
  match l.reverse.findIdx? (fun c => c = '.') with
  | none => none
  | some k => some (l.length - 1 - k)

/-- Python `pathlib.PurePath.suffix`: the extension of the final
component, from the last dot on, empty when the last dot is absent,
leading, or trailing. -/
def pySuffix (s : String) : String :=
  let cs := (pathName s).toList
  match rfindDot cs with
  | none => ""
  | some i => if 0 < i ∧ i < cs.length - 1 then (cs.drop i).asString else ""

/-- Python `str.lower` restricted to the ASCII simple case mapping
(the Lean `Char.toLower`); it agrees with Python on the ASCII
extensions compared against the allow-list. -/
def pyLower (s : String) : String := (s.toList.map Char.toLower).asString

/-- Python `pathlib.PurePath.stem`: the final component without its
suffix. -/
def pyStem (s : String) : String :=
  let name := pathName s
  (name.toList.take (name.length - (pySuffix s).length)).asString

/-- Outcomes of the `/upload/init` handler, one per
`return jsonify(...)` of `init_upload` (authentication aside):
the 400 "Missing filename or filesize", the 400
"Unsupported file format", and the success response. -/
inductive InitResult where
  | missingField
  | unsupportedFormat (ext : String)
  | ok (job_id : String) (chunk_size total_chunks : Nat)
deriving DecidableEq

/-- The `init_upload` handler of `web_app.py` (lines 1058-1111).
`filename` and `filesize` come from the request JSON and may be absent
(`none`); Python truthiness makes the empty string and the integer `0`
count as missing too.  `chunk_size` defaults to `1024 * 1024`.  The
fresh `uuid4` job id and the current time are passed in as `job_id`
and `now`.  Returns the response, the updated `active_jobs` registry,
and the list of staging files created. -/
def init_upload (reg : Registry) (filename : Option String)
    (filesize : Option Nat) (chunk_size_req : Option Nat)
    (job_id user : String) (now : Nat) : InitResult × Registry × List String :=
  let chunk_size := chunk_size_req.getD (1024 * 1024)
  match filename, filesize with
  | some fn, some fs =>
    if fn = "" ∨ fs = 0 then (.missingField, reg, [])
    else
      let file_ext := pyLower (pySuffix fn)
      if file_ext ∉ ALLOWED_EXTENSIONS then (.unsupportedFormat file_ext, reg, [])
      else
        let upload_filename := job_id ++ "_" ++ fn
        let upload_filepath := "uploads/" ++ upload_filename
        let total_chunks := (fs + chunk_size - 1) / chunk_size
        let job : Job := {
          filename := upload_filename
          filepath := upload_filepath
          original_name := fn
          filesize := fs
          chunk_size := chunk_size
          total_chunks := total_chunks
          uploaded_chunks := ∅
          status := .uploading
          upload_progress := 0
          user := user
          created_at := some now }
        (.ok job_id chunk_size total_chunks, (job_id, job) :: reg, [upload_filepath])
  | _, _ => (.missingField, reg, [])

/-- Outcomes of the `/process` handler: the 404 "Job not found" or the
success response `status: processing`. -/
inductive StartResult where
  | notFound
  | processing
deriving DecidableEq

/-- The `start_processing` handler of `web_app.py` (lines 1243-1260):
after the existence check it unconditionally sets the job's status to
`processing` and starts a background `process_video_async` thread.
The `Bool` records whether such a thread was launched. -/
def start_processing (reg : Registry) (job_id : String) :
    StartResult × Registry × Bool :=
  match findJob reg job_id with
  | none => (.notFound, reg, false)
  | some _ =>
    (.processing, updateJob reg job_id (fun j => { j with status := .processing }), true)

/-- The staleness test of `cleanup_old_sessions`: Python
`if created_at and created_at < cutoff_time` (a missing `created_at`
is never stale). -/
def isStale (cutoff : Nat) (job : Job) : Bool :=
  match job.created_at with
  | none => false
  | some t => t < cutoff

/-- The `cleanup_old_sessions` sweep of `web_app.py` (lines 69-94):
`cutoff_time = now - 24h`; every job whose `created_at` is older than
the cutoff is collected into `to_remove` and deleted from
`active_jobs`; additionally, for collected jobs whose status is
`uploading` and whose `filepath` is truthy, the staging file is
removed.  Time is in seconds; returns the surviving registry and the
staging-file paths whose deletion was attempted. -/
def cleanup_old_sessions (now : Nat) (reg : Registry) : Registry × List String :=
  let cutoff_time := now - 24 * 3600
  let to_remove : List String :=
    (reg.filter (fun e => isStale cutoff_time e.2)).map Prod.fst
  let removed_files : List String :=
    (reg.filter (fun e =>
      isStale cutoff_time e.2 && e.2.status == .uploading && e.2.filepath != "")).map
      (fun e => e.2.filepath)
  (reg.filter (fun e => !(to_remove.contains e.1)), removed_files)

/-- Exit status and captured output of one `subprocess.run` call. -/
structure ProcResult where
  returncode : Int
  stdout : String
  stderr : String

/-- The environment a single `process_video_async` run interacts with:
the stage-1 analyzer result, the `cv2` FPS probe (`none` when probing
raises), and the stage-2 report-generator result. -/
structure PipelineEnv where
  result1 : ProcResult
  fps_probe : Option ℚ
  result2 : ProcResult

/-- Shell quoting used by the f-string commands of `web_app.py`. -/
def quoted (s : String) : String := "\"" ++ s ++ "\""

/-- The `process_video_async` worker of `web_app.py` (lines 1262-1328),
with the two `subprocess.run` invocations and the `cv2` FPS probe
supplied by `env`.  Mirrors the control flow: stage-1 failure raises,
which the `except` clause turns into `status = error` with the
diagnostic embedded; otherwise the FPS is probed (falling back to 25
when probing fails or reports a non-positive rate), stage 2 runs, and
on success the job is completed with its two output artifacts.
Returns the final job record and whether the stage-2 command was
invoked. -/
def process_video_async (job_id : String) (job : Job) (env : PipelineEnv)
    (py output_folder : String) : Job × Bool :=
  let input_path := job.filepath
  let base_name := pyStem job.original_name
  let output_video := output_folder ++ "/" ++ job_id ++ "_" ++ base_name ++ "_analyzed.mp4"
  let output_csv := output_folder ++ "/" ++ job_id ++ "_" ++ base_name ++ "_analyzed.csv"
  let output_excel := output_folder ++ "/" ++ job_id ++ "_" ++ base_name ++ "_report.xlsx"
  let job1 := { job with progress := 20, message := some "Spouští se ergonomická analýza..." }
  let cmd1_str := quoted py ++ " main.py " ++ quoted input_path ++ " " ++ quoted output_video
    ++ " --model-complexity 2 --csv-export --no-progress"
  if env.result1.returncode ≠ 0 then
    let error_msg := ("Video processing failed. Return code: "
        ++ toString env.result1.returncode ++ "\nSTDERR: ")
      ++ env.result1.stderr
      ++ ("\nSTDOUT: " ++ env.result1.stdout ++ "\nCommand: " ++ cmd1_str)
    ({ job1 with status := .error, message := some ("Chyba při zpracování: " ++ error_msg) },
      false)
  else
    let job2 := { job1 with progress := 60, message := some "Analýza dokončena, vytvářím report..." }
    let video_fps : ℚ :=
      match env.fps_probe with
      | none => 25
      | some f => if f ≤ 0 then 25 else f
    let cmd2_str := quoted py ++ " analyze_ergonomics.py " ++ quoted output_csv ++ " "
      ++ quoted output_excel ++ " --fps " ++ toString video_fps
    if env.result2.returncode ≠ 0 then
      let error_msg := ("Excel generation failed. Return code: "
          ++ toString env.result2.returncode ++ "\nSTDERR: ")
        ++ env.result2.stderr
        ++ ("\nSTDOUT: " ++ env.result2.stdout ++ "\nCommand: " ++ cmd2_str)
      ({ job2 with status := .error, message := some ("Chyba při zpracování: " ++ error_msg) },
        true)
    else
      ({ job2 with
          progress := 100
          message := some "Analýza dokončena úspěšně!"
          status := .completed
          output_video := some output_video
          output_excel := some output_excel },
        true)

/-- One `data: ...` event emitted by the `/progress/<job_id>` SSE
generator, one constructor per `yield` shape in `get_progress`. -/
inductive SSEEvent where
  | update (status : Status) (progress : Nat) (message : String)
  | completionEvent (progress : Nat) (message : String) (video excel : Option String)
  | errorEvent (message : String)
  | timeoutEvent (message : String)
deriving DecidableEq

/-- The `while iterations < 120` loop of the `generate()` generator in
`get_progress` (lines 1336-1390), sampling a job snapshot that does
not change during the observation (sufficient for jobs already in a
terminal state, which the loop leaves on its first iteration): on each
iteration it emits an update when the sampled progress differs from
`last_progress` or the status is terminal, then emits the dedicated
completion or error event and stops on a terminal status; when the
fuel (the remaining iterations) runs out it emits the timeout event. -/
def sse_loop (job : Job) : Nat → Int → List SSEEvent
  | 0, _ => [.timeoutEvent "Monitoring timed out"]
  | fuel + 1, last_progress =>
    let current_progress := job.progress
    let current_status := job.status
    let current_message := job.message.getD "Processing..."
    let send := (current_progress : Int) ≠ last_progress
      ∨ current_status = .completed ∨ current_status = .error
    let sent : List SSEEvent :=
      if send then [.update current_status current_progress current_message] else []
    if current_status = .completed then
      sent ++ [.completionEvent 100 "Analýza dokončena úspěšně!" job.output_video job.output_excel]
    else if current_status = .error then
      sent ++ [.errorEvent (job.message.getD "Unknown error")]
    else
      sent ++ sse_loop job fuel (if send then (current_progress : Int) else last_progress)

/-- The `/progress/<job_id>` SSE endpoint: the event sequence produced
by `generate()` for a job snapshot, starting with `last_progress = -1`
and at most 120 iterations; an unknown job yields the single
`Job not found` error event. -/
def get_progress (reg : Registry) (job_id : String) : List SSEEvent :=
  match findJob reg job_id with
  | none => [.errorEvent "Job not found"]
  | some job => sse_loop job 120 (-1)

lemma findJob_updateJob_self (reg : Registry) (job_id : String) (f : Job → Job)
    (job : Job) (h : findJob reg job_id = some job) :
    findJob (updateJob reg job_id f) job_id = some (f job) := by
  induction reg with
  | nil => simp [findJob] at h
  | cons e rest ih =>
    obtain ⟨k', j⟩ := e
    by_cases hk : k' = job_id
    · simp only [findJob, if_pos hk, Option.some.injEq] at h
      simp [updateJob, findJob, hk, h]
    · simp only [findJob, if_neg hk] at h
      simpa [updateJob, findJob, hk] using ih h

lemma findJob_updateJob_other (reg : Registry) (job_id k : String) (f : Job → Job)
    (h : k ≠ job_id) :
    findJob (updateJob reg job_id f) k = findJob reg k := by
  induction reg with
  | nil => rfl
  | cons e rest ih =>
    obtain ⟨k', j⟩ := e
    by_cases hk : k' = job_id
    · have hjk : ¬ job_id = k := fun hh => h hh.symm
      rw [hk]
      simpa [updateJob, findJob, hjk] using ih
    · by_cases hek : k' = k
      · simp [updateJob, findJob, hk, hek, h]
      · simpa [updateJob, findJob, hk, hek] using ih

lemma findJob_filter_keys (ks : List String) (reg : Registry) (k : String) :
    findJob (reg.filter (fun e => !(ks.contains e.1))) k
      = if ks.contains k then none else findJob reg k := by
  induction reg with
  | nil => by_cases hc : k ∈ ks <;> simp [findJob, hc]
  | cons e rest ih =>
    obtain ⟨k', j⟩ := e
    by_cases hk : k' = k
    · subst hk
      by_cases hc : k' ∈ ks
      · simpa [List.filter_cons, findJob, hc] using ih
      · simp [List.filter_cons, findJob, hc]
    · by_cases hc : k' ∈ ks
      · by_cases hck : k ∈ ks
        · simpa [List.filter_cons, findJob, hc, hck, hk] using ih
        · simpa [List.filter_cons, findJob, hc, hck, hk] using ih
      · by_cases hck : k ∈ ks
        · simpa [List.filter_cons, findJob, hc, hck, hk] using ih
        · simpa [List.filter_cons, findJob, hc, hck, hk] using ih

lemma findJob_eq_of_mem (reg : Registry) (k : String) (j : Job)
    (hnd : (reg.map Prod.fst).Nodup) (hmem : (k, j) ∈ reg) :
    findJob reg k = some j := by
  induction reg with
  | nil => simp at hmem
  | cons e rest ih =>
    obtain ⟨k', j'⟩ := e
    simp only [List.map_cons, List.nodup_cons] at hnd
    rcases List.mem_cons.mp hmem with heq | hmem'
    · cases heq
      simp [findJob]
    · have hk : k' ≠ k := by
        intro hkk
        subst hkk
        exact hnd.1 (by simpa using List.mem_map_of_mem Prod.fst hmem')
      simp [findJob, hk, ih hnd.2 hmem']

lemma mem_of_findJob (reg : Registry) (k : String) (j : Job)
    (h : findJob reg k = some j) : (k, j) ∈ reg := by
  induction reg with
  | nil => simp [findJob] at h
  | cons e rest ih =>
    obtain ⟨k', j'⟩ := e
    by_cases hk : k' = k
    · subst hk
      simp [findJob] at h
      simp [h]
    · simp only [findJob, if_neg hk] at h
      exact List.mem_cons_of_mem _ (ih h)

lemma mem_stale_keys_iff (cutoff : Nat) (reg : Registry) (k : String) (job : Job)
    (hnd : (reg.map Prod.fst).Nodup) (hfind : findJob reg k = some job) :
    k ∈ (reg.filter (fun e => isStale cutoff e.2)).map Prod.fst
      ↔ isStale cutoff job = true := by
  constructor
  · intro hmem
    obtain ⟨⟨k1, j1⟩, he, hfst⟩ := List.mem_map.mp hmem
    obtain ⟨hmem1, hstale⟩ := List.mem_filter.mp he
    have hk1 : k1 = k := hfst
    rw [hk1] at hmem1
    have h1 := findJob_eq_of_mem reg k j1 hnd hmem1
    rw [hfind] at h1
    injection h1 with h2
    rw [h2]
    exact hstale
  · intro hstale
    exact List.mem_map.mpr
      ⟨(k, job), List.mem_filter.mpr ⟨mem_of_findJob _ _ _ hfind, hstale⟩, rfl⟩

/-- A fresh two-chunk `uploading` job used in concrete witnesses. -/
def wjob : Job := {
  filename := "w_f.mp4"
  filepath := "uploads/w_f.mp4"
  original_name := "f.mp4"
  filesize := 8
  chunk_size := 4
  total_chunks := 2
  uploaded_chunks := ∅
  status := .uploading
  upload_progress := 0
  user := "u"
  created_at := some 100 }

/-- Registry holding just `wjob` under id `w`. -/
def wreg : Registry := [("w", wjob)]

/-- Like `wjob` but with chunk 0 already received. -/
def wjob1 : Job := { wjob with uploaded_chunks := {0}, upload_progress := 50 }

/-- Registry holding just `wjob1` under id `w1`. -/
def wreg1 : Registry := [("w1", wjob1)]

/-- A `completed` job, a day past its creation time, with both artifacts
populated. -/
def cjob : Job := {
  filename := "c_f.mp4"
  filepath := "uploads/c_f.mp4"
  original_name := "f.mp4"
  filesize := 8
  chunk_size := 4
  total_chunks := 2
  uploaded_chunks := {0, 1}
  status := .completed
  upload_progress := 100
  user := "u"
  created_at := some 100
  progress := 100
  message := some "done"
  output_video := some "outputs/v.mp4"
  output_excel := some "outputs/r.xlsx" }

/-- Registry holding just `cjob` under id `c`. -/
def creg : Registry := [("c", cjob)]

/-- C5: `upload_chunk` fails with the 404 not-found error when the job id
is unknown, with the not-active (invalid state) error when the job's
status is not `uploading`, and with the invalid-index (out of range)
error when the chunk index is negative or not below `total_chunks`;
each such failure returns the registry unchanged and performs no file
write. -/
theorem upload_chunk_error_cases (reg : Registry) (job_id : String)
    (chunk_index : Int) (chunk_data : List Nat) :
    (findJob reg job_id = none →
      upload_chunk reg job_id chunk_index chunk_data = (.notFound, reg, [])) ∧
    (∀ job, findJob reg job_id = some job → job.status ≠ .uploading →
      upload_chunk reg job_id chunk_index chunk_data = (.notActive, reg, [])) ∧
    (∀ job, findJob reg job_id = some job → job.status = .uploading →
      (chunk_index < 0 ∨ (job.total_chunks : Int) ≤ chunk_index) →
      upload_chunk reg job_id chunk_index chunk_data = (.invalidIndex, reg, [])) := by
  refine ⟨fun h => ?_, fun job h hs => ?_, fun job h hs hr => ?_⟩
  · simp [upload_chunk, h]
  · simp [upload_chunk, h, hs]
  · simp only [upload_chunk, h]
    rw [if_neg (by simp [hs]), if_pos (by omega)]

/-- Witness for the `upload_chunk` failure cases at a concrete registry:
index 2 equals `total_chunks` of an `uploading` job and is rejected as
out of range with no state change. -/
theorem upload_chunk_error_cases_witness :
    (findJob wreg "w" = some wjob ∧ wjob.status = .uploading ∧
      ((2 : Int) < 0 ∨ (wjob.total_chunks : Int) ≤ 2)) ∧
    upload_chunk wreg "w" 2 [7] = (.invalidIndex, wreg, []) :=
  ⟨⟨by decide, by decide, by decide⟩,
    (upload_chunk_error_cases wreg "w" 2 [7]).2.2 wjob (by decide) (by decide) (by decide)⟩

/-- C6: re-delivering an already-received chunk index to an `uploading`
job returns the `already_uploaded` response with the recomputed
progress value and changes nothing: the registry (and with it the
received-chunk set and the stored upload progress) is returned as-is
and no staging-file write happens. -/
theorem upload_chunk_already_uploaded_idempotent (reg : Registry)
    (job_id : String) (chunk_index : Int) (chunk_data : List Nat) (job : Job)
    (h : findJob reg job_id = some job) (hs : job.status = .uploading)
    (h0 : 0 ≤ chunk_index) (hlt : chunk_index < (job.total_chunks : Int))
    (hmem : chunk_index ∈ job.uploaded_chunks) :
    upload_chunk reg job_id chunk_index chunk_data =
      (.alreadyUploaded ((job.uploaded_chunks.card : ℚ) / (job.total_chunks : ℚ) * 100),
        reg, []) := by
  simp only [upload_chunk, h]
  rw [if_neg (by simp [hs]), if_neg (by omega), if_pos hmem]

/-- Witness: re-sending chunk 0 of a job that has already received it
yields `already_uploaded` at 50 percent and no mutation. -/
theorem upload_chunk_already_uploaded_witness :
    (findJob wreg1 "w1" = some wjob1 ∧ wjob1.status = .uploading ∧
      (0 : Int) ≤ 0 ∧ (0 : Int) < (wjob1.total_chunks : Int) ∧
      (0 : Int) ∈ wjob1.uploaded_chunks) ∧
    upload_chunk wreg1 "w1" 0 [7] =
      (.alreadyUploaded ((wjob1.uploaded_chunks.card : ℚ) / (wjob1.total_chunks : ℚ) * 100),
        wreg1, []) :=
  ⟨⟨by decide, by decide, by decide, by decide, by decide⟩,
    upload_chunk_already_uploaded_idempotent wreg1 "w1" 0 [7] wjob1
      (by decide) (by decide) (by decide) (by decide) (by decide)⟩

/-- C9: an empty chunk body for a valid, not-yet-received index of an
`uploading` job is rejected with the no-data error and mutates nothing:
the index is not added to the received set, the registry is unchanged,
and no staging-file write happens, so the client can retry the chunk. -/
theorem upload_chunk_empty_data_rejected (reg : Registry) (job_id : String)
    (chunk_index : Int) (job : Job)
    (h : findJob reg job_id = some job) (hs : job.status = .uploading)
    (h0 : 0 ≤ chunk_index) (hlt : chunk_index < (job.total_chunks : Int))
    (hmem : chunk_index ∉ job.uploaded_chunks) :
    upload_chunk reg job_id chunk_index [] = (.noChunkData, reg, []) := by
  simp only [upload_chunk, h]
  rw [if_neg (by simp [hs]), if_neg (by omega), if_neg hmem]
  simp

/-- Witness: an empty body for fresh chunk 0 of an `uploading` job is
rejected with no mutation. -/
theorem upload_chunk_empty_data_witness :
    (findJob wreg "w" = some wjob ∧ wjob.status = .uploading ∧
      (0 : Int) ≤ 0 ∧ (0 : Int) < (wjob.total_chunks : Int) ∧
      (0 : Int) ∉ wjob.uploaded_chunks) ∧
    upload_chunk wreg "w" 0 [] = (.noChunkData, wreg, []) :=
  ⟨⟨by decide, by decide, by decide, by decide, by decide⟩,
    upload_chunk_empty_data_rejected wreg "w" 0 wjob
      (by decide) (by decide) (by decide) (by decide) (by decide)⟩

/-- C10: a declared file size of exactly 0 is rejected by `init_upload`
with the missing-field error — Python falsiness makes it
indistinguishable from omitting `filesize` — and no job record or
staging file is created. -/
theorem init_upload_zero_filesize_missing_field (reg : Registry)
    (filename : Option String) (chunk_size_req : Option Nat)
    (job_id user : String) (now : Nat) :
    init_upload reg filename (some 0) chunk_size_req job_id user now
        = (.missingField, reg, []) ∧
    init_upload reg filename (some 0) chunk_size_req job_id user now
        = init_upload reg filename none chunk_size_req job_id user now := by
  cases filename with
  | none => exact ⟨rfl, rfl⟩
  | some fn => exact ⟨by simp [init_upload], by simp [init_upload]⟩

/-- C8: an upload-initiation request with a present filename and a
non-zero filesize whose extension is not on the allow-list is rejected
with the unsupported-format error before any job is registered: the
registry is returned unchanged and no staging file is created. -/
theorem init_upload_unsupported_format_rejected (reg : Registry) (fn : String)
    (fs : Nat) (chunk_size_req : Option Nat) (job_id user : String) (now : Nat)
    (hfn : fn ≠ "") (hfs : fs ≠ 0)
    (hext : pyLower (pySuffix fn) ∉ ALLOWED_EXTENSIONS) :
    init_upload reg (some fn) (some fs) chunk_size_req job_id user now
      = (.unsupportedFormat (pyLower (pySuffix fn)), reg, []) := by
  simp [init_upload, hfn, hfs, hext]

/-- Witness: initiating an upload of `a.txt` is rejected as unsupported
with the registry untouched and no file allocated. -/
theorem init_upload_unsupported_format_witness :
    ("a.txt" ≠ "" ∧ (5 : Nat) ≠ 0 ∧ pyLower (pySuffix "a.txt") ∉ ALLOWED_EXTENSIONS) ∧
    init_upload [] (some "a.txt") (some 5) none "id1" "u" 0
      = (.unsupportedFormat (pyLower (pySuffix "a.txt")), [], []) :=
  ⟨⟨by decide, by decide, by decide⟩,
    init_upload_unsupported_format_rejected [] "a.txt" 5 none "id1" "u" 0
      (by decide) (by decide) (by decide)⟩

/-- C1 (amended): `start_processing` fails with the 404 not-found error
only when the job id is unknown; for any known job it performs no
status check: the call answers `processing`, overwrites the job's
status with `processing`, launches a background run, and leaves every
other registry entry unchanged. -/
theorem start_processing_no_status_check (reg : Registry) (job_id : String) :
    (findJob reg job_id = none →
      start_processing reg job_id = (.notFound, reg, false)) ∧
    (∀ job, findJob reg job_id = some job →
      (start_processing reg job_id).1 = .processing ∧
      (start_processing reg job_id).2.2 = true ∧
      findJob (start_processing reg job_id).2.1 job_id
        = some { job with status := .processing } ∧
      ∀ k, k ≠ job_id →
        findJob (start_processing reg job_id).2.1 k = findJob reg k) := by
  constructor
  · intro h
    simp [start_processing, h]
  · intro job h
    refine ⟨by simp [start_processing, h], by simp [start_processing, h], ?_, ?_⟩
    · have := findJob_updateJob_self reg job_id
        (fun j => { j with status := .processing }) job h
      simpa [start_processing, h] using this
    · intro k hk
      have := findJob_updateJob_other reg job_id k
        (fun j => { j with status := .processing }) hk
      simpa [start_processing, h] using this

/-- Witness for the amended start-processing behaviour on a concrete
registry with a `completed` job. -/
theorem start_processing_no_status_check_witness :
    findJob creg "c" = some cjob ∧
    ((start_processing creg "c").1 = .processing ∧
     (start_processing creg "c").2.2 = true ∧
     findJob (start_processing creg "c").2.1 "c"
       = some { cjob with status := .processing } ∧
     ∀ k, k ≠ "c" →
       findJob (start_processing creg "c").2.1 k = findJob creg k) :=
  ⟨by decide, (start_processing_no_status_check creg "c").2 cjob (by decide)⟩

/-- C1 counterexample: invoking `start_processing` on a job whose status
is `completed` (not `uploaded`) is not rejected with an invalid-state
error: it answers `processing`, overwrites the job's status and
launches another pipeline run. -/
theorem start_processing_claim_counterexample :
    cjob.status = .completed ∧
    (start_processing creg "c").1 = .processing ∧
    (start_processing creg "c").2.2 = true ∧
    findJob (start_processing creg "c").2.1 "c"
      = some { cjob with status := .processing } := by
  decide

/-- C2 (amended): one `cleanup_old_sessions` sweep removes from the
registry every job whose `created_at` is present and older than the
24-hour cutoff, whatever its status; every other job survives
unchanged.  The staging-file deletion is attempted for the stale
`uploading` jobs with a non-empty filepath. -/
theorem cleanup_removes_all_stale_jobs (now : Nat) (reg : Registry)
    (hnd : (reg.map Prod.fst).Nodup) (k : String) (job : Job)
    (hfind : findJob reg k = some job) :
    (findJob (cleanup_old_sessions now reg).1 k
      = if isStale (now - 24 * 3600) job then none else some job) ∧
    (isStale (now - 24 * 3600) job = true → job.status = .uploading →
      job.filepath ≠ "" → job.filepath ∈ (cleanup_old_sessions now reg).2) := by
  constructor
  · simp only [cleanup_old_sessions]
    rw [findJob_filter_keys]
    have hiff := mem_stale_keys_iff (now - 24 * 3600) reg k job hnd hfind
    by_cases hst : isStale (now - 24 * 3600) job = true
    · rw [if_pos hst, if_pos (by simpa using hiff.mpr hst)]
    · rw [if_neg hst, if_neg (fun hc => hst (hiff.mp (by simpa using hc)))]
      exact hfind
  · intro hst hup hfp
    simp only [cleanup_old_sessions]
    refine List.mem_map.mpr
      ⟨(k, job), List.mem_filter.mpr ⟨mem_of_findJob _ _ _ hfind, ?_⟩, rfl⟩
    simp [hst, hup, hfp]

/-- Witness: the sweep at a concrete time removes the day-old
`completed` job `cjob` from the concrete registry. -/
theorem cleanup_removes_all_stale_jobs_witness :
    ((creg.map Prod.fst).Nodup ∧ findJob creg "c" = some cjob) ∧
    findJob (cleanup_old_sessions 1000000 creg).1 "c"
      = if isStale (1000000 - 24 * 3600) cjob then none else some cjob :=
  ⟨⟨by decide, by decide⟩,
    (cleanup_removes_all_stale_jobs 1000000 creg (by decide) "c" cjob (by decide)).1⟩

/-- C2 counterexample: a `completed` job a day past creation is removed
from the registry by one sweep, though the claim says jobs in status
`completed` must be left present and unchanged. -/
theorem cleanup_claim_counterexample :
    cjob.status = .completed ∧
    findJob (cleanup_old_sessions 1000000 creg).1 "c" = none := by
  decide

/-- C7: when the stage-1 analyzer exits non-zero, `process_video_async`
puts the job into `error` with a message embedding the analyzer's
diagnostic stderr, and the stage-2 report generator is never invoked. -/
theorem stage1_failure_stops_pipeline (job_id : String) (job : Job)
    (env : PipelineEnv) (py output_folder : String)
    (h1 : env.result1.returncode ≠ 0) :
    (process_video_async job_id job env py output_folder).1.status = .error ∧
    (process_video_async job_id job env py output_folder).2 = false ∧
    ∃ a b, (process_video_async job_id job env py output_folder).1.message
      = some (a ++ env.result1.stderr ++ b) := by
  refine ⟨by simp [process_video_async, h1], by simp [process_video_async, h1], ?_⟩
  refine ⟨"Chyba při zpracování: " ++ ("Video processing failed. Return code: "
      ++ toString env.result1.returncode ++ "\nSTDERR: "),
    "\nSTDOUT: " ++ env.result1.stdout ++ "\nCommand: " ++ (quoted py ++ " main.py "
      ++ quoted job.filepath ++ " " ++ quoted (output_folder ++ "/" ++ job_id ++ "_"
      ++ pyStem job.original_name ++ "_analyzed.mp4")
      ++ " --model-complexity 2 --csv-export --no-progress"), ?_⟩
  simp [process_video_async, h1, String.append_assoc]

/-- The stage-1-fails environment used in the pipeline witness. -/
def wenv : PipelineEnv := {
  result1 := { returncode := 1, stdout := "out1", stderr := "boom" }
  fps_probe := some 30
  result2 := { returncode := 0, stdout := "", stderr := "" } }

/-- Witness: with a stage-1 exit code of 1 the job errors, the message
embeds the stderr text, and stage 2 is not invoked. -/
theorem stage1_failure_stops_pipeline_witness :
    wenv.result1.returncode ≠ 0 ∧
    ((process_video_async "c" cjob wenv "py" "outputs").1.status = .error ∧
     (process_video_async "c" cjob wenv "py" "outputs").2 = false ∧
     ∃ a b, (process_video_async "c" cjob wenv "py" "outputs").1.message
       = some (a ++ wenv.result1.stderr ++ b)) :=
  ⟨by decide, stage1_failure_stops_pipeline "c" cjob wenv "py" "outputs" (by decide)⟩

/-- C4 (amended): sampling a job that is already `completed` when the
subscription starts, the SSE loop emits exactly two events — the
completed-status update, then the dedicated completion event carrying
the artifact paths — and then the stream ends. -/
theorem sse_completed_two_events (job : Job) (h : job.status = .completed) :
    sse_loop job 120 (-1)
      = [.update .completed job.progress (job.message.getD "Processing..."),
         .completionEvent 100 "Analýza dokončena úspěšně!"
           job.output_video job.output_excel] := by
  rw [show (120 : Nat) = 119 + 1 from rfl]
  simp [sse_loop, h]

/-- Witness: the SSE loop over the concrete completed job `cjob` emits
its two events. -/
theorem sse_completed_two_events_witness :
    cjob.status = .completed ∧
    sse_loop cjob 120 (-1)
      = [.update .completed cjob.progress (cjob.message.getD "Processing..."),
         .completionEvent 100 "Analýza dokončena úspěšně!"
           cjob.output_video cjob.output_excel] :=
  ⟨by decide, sse_completed_two_events cjob (by decide)⟩

/-- C4 counterexample: for a job already `completed` at subscribe time
the progress stream emits two events, not exactly one; both carry the
terminal `completed` status. -/
theorem sse_claim_counterexample :
    (get_progress creg "c").length = 2 ∧ (get_progress creg "c").length ≠ 1 ∧
    ∀ ev ∈ get_progress creg "c",
      (ev = .update .completed 100 "done" ∨
       ev = .completionEvent 100 "Analýza dokončena úspěšně!"
         (some "outputs/v.mp4") (some "outputs/r.xlsx")) := by
  decide

lemma upload_chunk_fresh_step (reg : Registry) (job_id : String) (i : Int)
    (d : List Nat) (job : Job)
    (h : findJob reg job_id = some job) (hs : job.status = .uploading)
    (h0 : 0 ≤ i) (hlt : i < (job.total_chunks : Int))
    (hni : i ∉ job.uploaded_chunks) (hd : d ≠ []) :
    (upload_chunk reg job_id i d).2.1
      = updateJob reg job_id (fun _ => { job with
          uploaded_chunks := insert i job.uploaded_chunks
          upload_progress :=
            ((insert i job.uploaded_chunks).card : ℚ) / (job.total_chunks : ℚ) * 100
          status := if (insert i job.uploaded_chunks).card = job.total_chunks
            then Status.uploaded else job.status }) := by
  simp only [upload_chunk, h]
  rw [if_neg (by simp [hs]), if_neg (by omega), if_neg hni, if_neg hd]

lemma run_chunks_invariant (job_id : String) (payload : Int → List Nat) :
    ∀ (l : List Int) (reg : Registry) (job : Job) (s : Finset Int),
    findJob reg job_id = some job →
    job.status = .uploading →
    job.uploaded_chunks = s →
    job.upload_progress = (s.card : ℚ) / (job.total_chunks : ℚ) * 100 →
    l.Nodup →
    (∀ x ∈ l, 0 ≤ x ∧ x < (job.total_chunks : Int)) →
    (∀ x ∈ l, x ∉ s) →
    (∀ x ∈ l, payload x ≠ []) →
    s.card + l.length ≤ job.total_chunks →
    ∃ job', findJob (run_chunks reg job_id payload l) job_id = some job' ∧
      job'.total_chunks = job.total_chunks ∧
      job'.uploaded_chunks = s ∪ l.toFinset ∧
      job'.upload_progress
        = ((s.card : ℚ) + (l.length : ℚ)) / (job.total_chunks : ℚ) * 100 ∧
      job'.status = (if l ≠ [] ∧ s.card + l.length = job.total_chunks
        then Status.uploaded else Status.uploading) := by
  intro l
  induction l with
  | nil =>
    intro reg job s hfind hstat hchunks hprog _ _ _ _ _
    exact ⟨job, hfind, rfl, by simp [hchunks], by simp [hprog], by simp [hstat]⟩
  | cons x rest ih =>
    intro reg job s hfind hstat hchunks hprog hnd hrange hdisj hdata hcard
    have hx0 : 0 ≤ x := (hrange x (by simp)).1
    have hxlt : x < (job.total_chunks : Int) := (hrange x (by simp)).2
    have hxs : x ∉ s := hdisj x (by simp)
    have hxd : payload x ≠ [] := hdata x (by simp)
    have hxs' : x ∉ job.uploaded_chunks := by rw [hchunks]; exact hxs
    have hstep := upload_chunk_fresh_step reg job_id x (payload x) job
      hfind hstat hx0 hxlt hxs' hxd
    obtain ⟨job1, hjob1def, hfind1⟩ :
        ∃ job1, job1 = { job with
            uploaded_chunks := insert x job.uploaded_chunks
            upload_progress :=
              ((insert x job.uploaded_chunks).card : ℚ) / (job.total_chunks : ℚ) * 100
            status := if (insert x job.uploaded_chunks).card = job.total_chunks
              then Status.uploaded else job.status } ∧
          findJob (upload_chunk reg job_id x (payload x)).2.1 job_id = some job1 := by
      refine ⟨_, rfl, ?_⟩
      rw [hstep]
      exact findJob_updateJob_self reg job_id _ job hfind
    have htot1 : job1.total_chunks = job.total_chunks := by rw [hjob1def]
    have hchunks1 : job1.uploaded_chunks = insert x s := by
      rw [hjob1def]
      simp [hchunks]
    have hprog1 : job1.upload_progress
        = ((insert x s).card : ℚ) / (job.total_chunks : ℚ) * 100 := by
      rw [hjob1def]
      simp [hchunks]
    have hcard1 : (insert x s).card = s.card + 1 := Finset.card_insert_of_not_mem hxs
    have hstatus1 : job1.status
        = if s.card + 1 = job.total_chunks then Status.uploaded else Status.uploading := by
      rw [hjob1def]
      simp [hchunks, Finset.card_insert_of_not_mem hxs, hstat]
    have hcard' : s.card + (rest.length + 1) ≤ job.total_chunks := by
      simpa using hcard
    simp only [run_chunks]
    by_cases hfull : s.card + 1 = job.total_chunks
    · have hrest : rest = [] := List.length_eq_zero.mp (by omega)
      subst hrest
      simp only [run_chunks]
      refine ⟨job1, hfind1, htot1, ?_, ?_, ?_⟩
      · rw [hchunks1]
        simp only [List.toFinset_cons, List.toFinset_nil, insert_emptyc_eq]
        rw [Finset.insert_eq, Finset.union_comm]
      · rw [hprog1, hcard1]
        simp only [List.length_cons, List.length_nil]
        push_cast
        ring_nf
      · rw [hstatus1, if_pos hfull, if_pos ⟨by simp, by simpa using hfull⟩]
    · have hstatus1' : job1.status = .uploading := by rw [hstatus1, if_neg hfull]
      have hnd' := List.nodup_cons.mp hnd
      obtain ⟨job2, hfind2, htot2, hchunks2, hprog2, hstat2⟩ :=
        ih (upload_chunk reg job_id x (payload x)).2.1 job1 (insert x s)
          hfind1 hstatus1' hchunks1
          (by rw [hprog1, htot1])
          hnd'.2
          (fun y hy => by rw [htot1]; exact hrange y (List.mem_cons_of_mem x hy))
          (fun y hy => by
            rw [Finset.mem_insert]
            push_neg
            exact ⟨fun hyx => hnd'.1 (hyx ▸ hy), hdisj y (List.mem_cons_of_mem x hy)⟩)
          (fun y hy => hdata y (List.mem_cons_of_mem x hy))
          (by rw [hcard1, htot1]; omega)
      refine ⟨job2, hfind2, htot2.trans htot1, ?_, ?_, ?_⟩
      · rw [hchunks2, List.toFinset_cons, Finset.insert_union, Finset.union_insert]
      · rw [hprog2, htot1, hcard1]
        simp only [List.length_cons]
        push_cast
        ring_nf
      · rw [hstat2]
        by_cases hre : rest = []
        · subst hre
          rw [if_neg (by simp), if_neg (fun hc => hfull (by simpa using hc.2))]
        · have hcnd : ((insert x s).card + rest.length = job1.total_chunks)
              ↔ (s.card + (x :: rest).length = job.total_chunks) := by
            rw [hcard1, htot1]
            simp only [List.length_cons]
            omega
          by_cases h3 : s.card + (x :: rest).length = job.total_chunks
          · rw [if_pos ⟨hre, hcnd.mpr h3⟩, if_pos ⟨by simp, h3⟩]
          · rw [if_neg (fun hc => h3 (hcnd.mp hc.2)),
              if_neg (fun hc => h3 hc.2)]

/-- C3: delivering all `total_chunks` distinct valid chunk indices of a
fresh `uploading` job through `upload_chunk`, in any order and with
non-empty payloads, moves the status to `uploaded` exactly once — upon
acceptance of the last distinct index, with upload progress 100: after
every strict prefix of the delivery the job is still `uploading`, and
delivering any index again afterwards is answered with the not-active
error and leaves the registry unchanged, so no second transition to
`uploaded` ever happens. -/
theorem upload_all_chunks_transition_once (reg : Registry) (job_id : String)
    (payload : Int → List Nat) (l : List Int) (job : Job)
    (hfind : findJob reg job_id = some job)
    (hstat : job.status = .uploading)
    (hchunks : job.uploaded_chunks = ∅)
    (hprog : job.upload_progress = 0)
    (hpos : 0 < job.total_chunks)
    (hperm : l.Perm ((List.range job.total_chunks).map (fun n : Nat => (n : Int))))
    (hdata : ∀ x ∈ l, payload x ≠ []) :
    (∃ job', findJob (run_chunks reg job_id payload l) job_id = some job' ∧
      job'.status = .uploaded ∧ job'.upload_progress = 100) ∧
    (∀ p, p <+: l → p.length < l.length →
      ∃ jp, findJob (run_chunks reg job_id payload p) job_id = some jp ∧
        jp.status = .uploading) ∧
    (∀ i, upload_chunk (run_chunks reg job_id payload l) job_id i (payload i)
      = (.notActive, run_chunks reg job_id payload l, [])) := by
  have hlen : l.length = job.total_chunks := by
    have := hperm.length_eq
    simpa using this
  have hnd : l.Nodup := (List.Perm.nodup_iff hperm).mpr
    (List.Nodup.map (fun a b hab => by exact_mod_cast hab) (List.nodup_range _))
  have hrange : ∀ x ∈ l, 0 ≤ x ∧ x < (job.total_chunks : Int) := by
    intro x hx
    obtain ⟨n, hn, rfl⟩ := List.mem_map.mp (hperm.subset hx)
    have hn' := List.mem_range.mp hn
    exact ⟨by exact_mod_cast Nat.zero_le n, by exact_mod_cast hn'⟩
  obtain ⟨job', hfind', htot', hchunks', hprog', hstat'⟩ :=
    run_chunks_invariant job_id payload l reg job ∅ hfind hstat hchunks
      (by simp [hprog]) hnd hrange (by simp) hdata (by simp [hlen])
  have hl_ne : l ≠ [] := by
    intro h0
    rw [h0] at hlen
    simp at hlen
    omega
  have hstat'' : job'.status = .uploaded := by
    rw [hstat', if_pos ⟨hl_ne, by simp [hlen]⟩]
  have htne : (job.total_chunks : ℚ) ≠ 0 :=
    Nat.cast_ne_zero.mpr (Nat.pos_iff_ne_zero.mp hpos)
  have hprog'' : job'.upload_progress = 100 := by
    rw [hprog', hlen]
    simp [div_self htne]
  refine ⟨⟨job', hfind', hstat'', hprog''⟩, ?_, ?_⟩
  · intro p hp hpl
    have hsub : p.Sublist l := hp.sublist
    obtain ⟨jp, hjp, _, _, _, hjs⟩ :=
      run_chunks_invariant job_id payload p reg job ∅ hfind hstat hchunks
        (by simp [hprog]) (hnd.sublist hsub)
        (fun y hy => hrange y (hsub.subset hy)) (by simp)
        (fun y hy => hdata y (hsub.subset hy))
        (by simp; omega)
    have hcnd : ¬ (p ≠ [] ∧ (∅ : Finset Int).card + p.length = job.total_chunks) := by
      rintro ⟨-, h2⟩
      simp at h2
      omega
    exact ⟨jp, hjp, by rw [hjs, if_neg hcnd]⟩
  · intro i
    simp only [upload_chunk, hfind']
    rw [if_pos (by simp [hstat''])]

/-- Witness: on a concrete fresh two-chunk job, delivering chunks in the
order 1, 0 transitions the job to `uploaded` at 100 exactly at the
second delivery, and later re-deliveries change nothing. -/
theorem upload_all_chunks_transition_once_witness :
    (findJob wreg "w" = some wjob ∧ wjob.status = .uploading ∧
     wjob.uploaded_chunks = ∅ ∧ wjob.upload_progress = 0 ∧ 0 < wjob.total_chunks ∧
     ([1, 0] : List Int).Perm ((List.range wjob.total_chunks).map (fun n : Nat => (n : Int))) ∧
     ∀ x ∈ ([1, 0] : List Int), (fun _ => [7]) x ≠ ([] : List Nat)) ∧
    ((∃ job', findJob (run_chunks wreg "w" (fun _ => [7]) [1, 0]) "w" = some job' ∧
        job'.status = .uploaded ∧ job'.upload_progress = 100) ∧
     (∀ p, p <+: ([1, 0] : List Int) → p.length < ([1, 0] : List Int).length →
        ∃ jp, findJob (run_chunks wreg "w" (fun _ => [7]) p) "w" = some jp ∧
          jp.status = .uploading) ∧
     (∀ i, upload_chunk (run_chunks wreg "w" (fun _ => [7]) [1, 0]) "w" i [7]
        = (.notActive, run_chunks wreg "w" (fun _ => [7]) [1, 0], []))) :=
  ⟨⟨by decide, by decide, by decide, by decide, by decide, by decide, by decide⟩,
    upload_all_chunks_transition_once wreg "w" (fun _ => [7]) [1, 0] wjob
      (by decide) (by decide) (by decide) (by decide) (by decide) (by decide) (by decide)⟩
